import Mathlib

/-!
Verification development for the saiborg assistant (app.py, monday_client.py,
build_index.py).  Message texts are modelled as lists of characters; the
Python string operations used by the source (lower, strip, substring tests,
str.find, whitespace split and the concrete regular expressions of
extract_customer_name) are embedded as executable functions, faithful on the
ASCII and Latin-1 character ranges used by the program.
-/

set_option maxRecDepth 10000

namespace Saiborg

/-- Lower-casing of one character, mirroring Python str.lower on the ASCII
and Latin-1 ranges (the only characters the router phrases use). -/
def pyLowerChar (c : Char) : Char :=
  let n := c.toNat
  if 65 ≤ n ∧ n ≤ 90 then Char.ofNat (n + 32)
  else if 192 ≤ n ∧ n ≤ 222 ∧ n ≠ 215 then Char.ofNat (n + 32)
  else c

/-- Lower-casing of a text, mirroring Python str.lower. -/
def pyLower (s : List Char) : List Char := s.map pyLowerChar

/-- Whitespace per Python str.strip and the regex whitespace class,
restricted to the ASCII and Latin-1 range. -/
def pyIsSpace (c : Char) : Bool :=
  c.toNat = 9 || c.toNat = 10 || c.toNat = 11 || c.toNat = 12 || c.toNat = 13 ||
  c.toNat = 28 || c.toNat = 29 || c.toNat = 30 || c.toNat = 31 || c.toNat = 32 ||
  c.toNat = 133 || c.toNat = 160

/-- Membership of a character in a character set, as used by the Python
strip calls with an explicit set of characters. -/
def charIn (cs : List Char) (c : Char) : Bool := cs.any (fun d => d == c)

/-- Removal of the maximal run of characters satisfying p from the right
end of a list (the right half of a Python strip). -/
def dropRightWhile (p : Char → Bool) : List Char → List Char
  | [] => []
  | c :: cs =>
    match dropRightWhile p cs with
    | [] => if p c then [] else [c]
    | d :: ds => c :: d :: ds

/-- Python str.strip with no argument: whitespace removed from both ends. -/
def pyStrip (s : List Char) : List Char :=
  dropRightWhile pyIsSpace (s.dropWhile pyIsSpace)

/-- Python str.strip with an explicit character set. -/
def pyStripSet (cs : List Char) (s : List Char) : List Char :=
  dropRightWhile (charIn cs) (s.dropWhile (charIn cs))

/-- Python str.lstrip with an explicit character set. -/
def pyLStrip (cs : List Char) (s : List Char) : List Char :=
  s.dropWhile (charIn cs)

/-- Boolean test that the first list is an initial segment of the second. -/
def isPrefixOfB : List Char → List Char → Bool
  | [], _ => true
  | _ :: _, [] => false
  | p :: ps, c :: cs => p == c && isPrefixOfB ps cs

/-- Substring test mirroring the Python expression needle in hay. -/
def hasSub : List Char → List Char → Bool
  | [], needle => isPrefixOfB needle []
  | c :: t, needle => isPrefixOfB needle (c :: t) || hasSub t needle

/-- Index of the first occurrence of a substring, mirroring Python
str.find (none in place of the Python result -1). -/
def findSubIdx : List Char → List Char → Option Nat
  | [], needle => if isPrefixOfB needle [] then some 0 else none
  | c :: t, needle =>
    if isPrefixOfB needle (c :: t) then some 0
    else (findSubIdx t needle).map (fun i => i + 1)

/-! Intent router (handle_mention in app.py, lines 388 to 456). -/

inductive IntentCategory
  | HealthCheck
  | CrmLookup
  | GeneralQA
deriving DecidableEq

/-- Intent classification from handle_mention: the branch on the phrase
"monday test", then "monday" or "crm", else the RAG fallback. -/
def intentCategory (userText : List Char) : IntentCategory :=
  let lower := pyLower userText
  if hasSub lower ("monday test".data) then IntentCategory.HealthCheck
  else if hasSub lower ("monday".data) || hasSub lower ("crm".data) then
    IntentCategory.CrmLookup
  else IntentCategory.GeneralQA

/-! Entity extractor (extract_customer_name in app.py, lines 116 to 197).
The three regular expressions of the source are embedded as specialised
backtracking matchers; each search tries every start position from the left
and, at a position, follows the deterministic backtracking order of the
Python engine for that concrete pattern (greedy character-class runs whose
follower sets are disjoint, a lazy group repetition tried shortest first,
and alternatives in written order). -/

/-- Character class of the source regexes: ASCII letters and digits plus
the six Danish letters appearing in the patterns. -/
def isClassA (c : Char) : Bool :=
  (65 ≤ c.toNat && c.toNat ≤ 90) || (97 ≤ c.toNat && c.toNat ≤ 122) ||
  (48 ≤ c.toNat && c.toNat ≤ 57) || charIn ['Æ', 'Ø', 'Å', 'æ', 'ø', 'å'] c

/-- Continuation class of the first kunde pattern: classA plus underscore
and hyphen. -/
def isClassB (c : Char) : Bool := isClassA c || c == '_' || c == '-'

/-- Continuation class of the fallback kunde pattern: classA plus space,
dot, underscore and hyphen. -/
def isClassB2 (c : Char) : Bool :=
  isClassA c || c == ' ' || c == '.' || c == '_' || c == '-'

/-- ASCII letter test: what the class A to Z matches under IGNORECASE. -/
def isAsciiAlpha (c : Char) : Bool :=
  (65 ≤ c.toNat && c.toNat ≤ 90) || (97 ≤ c.toNat && c.toNat ≤ 122)

/-- ASCII upper-case test, the class A to Z without IGNORECASE. -/
def isAsciiUpper (c : Char) : Bool := 65 ≤ c.toNat && c.toNat ≤ 90

/-- Upper-case test mirroring Python str.isupper on one character,
restricted to the ASCII and Latin-1 range. -/
def pyIsUpper (c : Char) : Bool :=
  (65 ≤ c.toNat && c.toNat ≤ 90) ||
  (192 ≤ c.toNat && c.toNat ≤ 222 && c.toNat ≠ 215)

/-- Alphanumeric test mirroring Python str.isalnum on one character,
restricted to the ASCII and Latin-1 range. -/
def pyIsAlnum (c : Char) : Bool :=
  (48 ≤ c.toNat && c.toNat ≤ 57) || (65 ≤ c.toNat && c.toNat ≤ 90) ||
  (97 ≤ c.toNat && c.toNat ≤ 122) ||
  charIn ['ª', 'µ', 'º', '¹', '²', '³', '¼', '½', '¾'] c ||
  (192 ≤ c.toNat && c.toNat ≤ 214) || (216 ≤ c.toNat && c.toNat ≤ 246) ||
  (248 ≤ c.toNat && c.toNat ≤ 255)

/-- Word character of the regex word-boundary class: alphanumeric or
underscore. -/
def isWordChar (c : Char) : Bool := pyIsAlnum c || c == '_'

/-- Case-insensitive literal match: consumes the given lower-case pattern
from the front of the text and returns the rest, or none. -/
def ciStrip : List Char → List Char → Option (List Char)
  | [], s => some s
  | _ :: _, [] => none
  | p :: ps, c :: cs => if pyLowerChar c = p then ciStrip ps cs else none

/-- Case-insensitive prefix test. -/
def ciStarts (pat s : List Char) : Bool := (ciStrip pat s).isSome

/-- Match of the connector tail of the first kunde regex: one or more
whitespace characters followed by one of the alternatives i-whitespace-
monday, og, hvor, som, der (no trailing word boundary in the source). -/
def connAt (rest : List Char) : Bool :=
  if (rest.takeWhile pyIsSpace).isEmpty then false
  else
    let r := rest.dropWhile pyIsSpace
    ciStarts ("og".data) r || ciStarts ("hvor".data) r ||
    ciStarts ("som".data) r || ciStarts ("der".data) r ||
    (match ciStrip ("i".data) r with
     | some r2 =>
        !(r2.takeWhile pyIsSpace).isEmpty &&
          ciStarts ("monday".data) (r2.dropWhile pyIsSpace)
     | none => false)

/-- Lazy repetition of the first kunde regex group: after each captured
word the connector tail is tried first (shortest capture wins); on failure
one more whitespace-run-plus-word is captured.  The fuel starts at one more
than the length of the remaining text, and every recursive call consumes at
least two characters of it, so the fuel never runs out. -/
def g1Loop (fuel : Nat) (acc rest : List Char) : Option (List Char) :=
  match fuel with
  | 0 => none
  | fuel + 1 =>
    if connAt rest then some acc
    else
      let sp := rest.takeWhile pyIsSpace
      if sp.isEmpty then none
      else
        match rest.dropWhile pyIsSpace with
        | [] => none
        | c :: cs =>
          if isClassA c then
            g1Loop fuel (acc ++ sp ++ (c :: cs.takeWhile isClassB))
              (cs.dropWhile isClassB)
          else none

/-- Match attempt, at one start position, of the first kunde regex of the
source: kunde, an optional n, whitespace, the lazily repeated word group,
then the connector tail.  Returns the captured group. -/
def matchKunde1At (s : List Char) : Option (List Char) :=
  match ciStrip ("kunde".data) s with
  | none => none
  | some r1 =>
    let r2 := match r1 with
      | c :: cs => if pyLowerChar c = 'n' then cs else r1
      | [] => r1
    if (r2.takeWhile pyIsSpace).isEmpty then none
    else
      match r2.dropWhile pyIsSpace with
      | [] => none
      | c :: cs =>
        if isClassA c then
          g1Loop (s.length + 1) (c :: cs.takeWhile isClassB)
            (cs.dropWhile isClassB)
        else none

/-- Match attempt, at one start position, of the fallback kunde regex:
kunde, an optional n, whitespace, then a classA character followed by one
or more classB2 characters (greedy).  Returns the captured group. -/
def matchKunde2At (s : List Char) : Option (List Char) :=
  match ciStrip ("kunde".data) s with
  | none => none
  | some r1 =>
    let r2 := match r1 with
      | c :: cs => if pyLowerChar c = 'n' then cs else r1
      | [] => r1
    if (r2.takeWhile pyIsSpace).isEmpty then none
    else
      match r2.dropWhile pyIsSpace with
      | [] => none
      | c :: cs =>
        if isClassA c then
          let run := cs.takeWhile isClassB2
          if run.isEmpty then none else some (c :: run)
        else none

/-- Match attempt, at one start position, of the find regex: find,
whitespace, then (because the source compiles the pattern with IGNORECASE)
an ASCII letter of either case followed by one or more classA characters.
Returns the captured group. -/
def matchFindAt (s : List Char) : Option (List Char) :=
  match ciStrip ("find".data) s with
  | none => none
  | some r1 =>
    if (r1.takeWhile pyIsSpace).isEmpty then none
    else
      match r1.dropWhile pyIsSpace with
      | [] => none
      | c :: cs =>
        if isAsciiAlpha c then
          if (cs.takeWhile isClassA).isEmpty then none
          else some (c :: cs.takeWhile isClassA)
        else none

/-- Leftmost search of a match attempt over all start positions, the
semantics of Python re.search. -/
def searchSub (f : List Char → Option (List Char)) : List Char → Option (List Char)
  | [] => f []
  | c :: rest =>
    match f (c :: rest) with
    | some g => some g
    | none => searchSub f rest

/-- Connector stop list of the fallback kunde branch, in source order. -/
def rule2Stops : List (List Char) :=
  [" i monday".data, " i ".data, " og ".data, " hvor ".data, " som ".data,
   " der ".data]

/-- Truncation of the fallback kunde capture at the first stop word found,
in list order, with a break after the first hit (source lines 141 to 146). -/
def rule2Trunc : List (List Char) → List Char → List Char
  | [], name => name
  | stop :: more, name =>
    match findSubIdx (pyLower name) stop with
    | some i => pyStrip (name.take i)
    | none => rule2Trunc more name

/-- Connector stop list of the find branch, in source order. -/
def rule3Stops : List (List Char) :=
  [" i ".data, " og ".data, " hvor ".data, " som ".data, " der ".data]

/-- Truncation of the find capture: for each stop word whose lower-cased
occurrence is present, the name is cut at its first case-sensitive
occurrence, with no break (source lines 154 to 157). -/
def rule3Trunc (name : List Char) : List Char :=
  rule3Stops.foldl
    (fun n stop =>
      if hasSub (pyLower n) stop then
        match findSubIdx n stop with
        | some i => n.take i
        | none => n
      else n)
    name

/-- Connector list of the earliest-connector branch, in source order. -/
def connectors4 : List (List Char) :=
  [" i monday".data, " og ".data, " hvor ".data, " som ".data, " der ".data]

/-- Earliest connector position in the lower-cased text, mirroring the
fold of source lines 162 to 167; the text length stands for not found. -/
def earliestConnIdx (lower : List Char) : Nat :=
  connectors4.foldl
    (fun acc conn =>
      match findSubIdx lower conn with
      | some i => if i < acc then i else acc
      | none => acc)
    lower.length

/-- Removal of a leading find token, mirroring the anchored ignore-case
substitution of source line 172: find followed by at least one whitespace
character, both removed. -/
def stripLeadingFind (before : List Char) : List Char :=
  match ciStrip ("find".data) before with
  | some r =>
    if (r.takeWhile pyIsSpace).isEmpty then before else r.dropWhile pyIsSpace
  | none => before

/-- Whitespace split mirroring Python str.split with no argument. -/
def pySplitAux : List Char → List Char → List (List Char)
  | [], acc => if acc.isEmpty then [] else [acc.reverse]
  | c :: rest, acc =>
    if pyIsSpace c then
      if acc.isEmpty then pySplitAux rest [] else acc.reverse :: pySplitAux rest []
    else pySplitAux rest (c :: acc)

/-- Whitespace split mirroring Python str.split with no argument. -/
def pySplit (s : List Char) : List (List Char) := pySplitAux s []

/-- Name choice of the earliest-connector branch (source lines 169 to 184):
text before the connector, leading find removed, then the capitalized words
joined with single spaces if any exist, else the last token, else the text
itself. -/
def rule4Name (t : List Char) (idx : Nat) : List Char :=
  let before := pyStrip (t.take idx)
  let before2 := stripLeadingFind before
  let parts := pySplit before2
  match parts with
  | [] => before2
  | _ :: _ =>
    let caps := parts.filter
      (fun p => match p with | [] => false | c :: _ => pyIsUpper c)
    match caps with
    | [] => parts.getLastD []
    | _ :: _ => List.intercalate [' '] caps

/-- Search of the capitalized-word regex of source line 187: a word
boundary, an ASCII upper-case letter, one or more classA characters, then a
word boundary.  The greedy run forces the capture to the maximal classA run,
so a position matches exactly when the run is non-empty and the character
after it, if any, is not a word character. -/
def capSearchAux : Option Char → List Char → Option (List Char)
  | _, [] => none
  | prev, c :: rest =>
    let boundary := match prev with | none => true | some p => !isWordChar p
    if boundary && isAsciiUpper c then
      let run := rest.takeWhile isClassA
      let after := rest.dropWhile isClassA
      if !run.isEmpty &&
          (match after with | [] => true | a :: _ => !isWordChar a) then
        some (c :: run)
      else capSearchAux (some c) rest
    else capSearchAux (some c) rest

/-- First token of length greater than two starting with an alphanumeric
character (source lines 192 to 195). -/
def rule6Find (t : List Char) : Option (List Char) :=
  (pySplit t).find?
    (fun p => decide (2 < p.length) &&
      (match p with | [] => false | c :: _ => pyIsAlnum c))

/-- Trailing punctuation set stripped from every returned name. -/
def punctChars : List Char := " ?!.:,;".data

/-- Leading dash, bullet and space characters stripped from the input. -/
def dashSet : List Char := ['-', '–', '—', ' ']

/-- Input normalisation of extract_customer_name (source lines 118 to 119):
strip, lstrip of dashes and spaces, strip. -/
def normInput (text : List Char) : List Char :=
  pyStrip (pyLStrip dashSet (pyStrip text))

/-- Fallback chain of extract_customer_name on the normalised input. -/
def extractFrom (t : List Char) : List Char :=
  match searchSub matchKunde1At t with
  | some g => pyStripSet punctChars g
  | none =>
    match searchSub matchKunde2At t with
    | some g => pyStripSet punctChars (rule2Trunc rule2Stops g)
    | none =>
      match searchSub matchFindAt t with
      | some g => pyStripSet punctChars (rule3Trunc g)
      | none =>
        if earliestConnIdx (pyLower t) < t.length then
          pyStripSet punctChars (rule4Name t (earliestConnIdx (pyLower t)))
        else
          match capSearchAux none t with
          | some g => pyStripSet punctChars g
          | none =>
            match rule6Find t with
            | some p => pyStripSet punctChars p
            | none => pyStripSet punctChars t

/-- Customer name extraction heuristic of app.py. -/
def extract_customer_name (text : List Char) : List Char :=
  extractFrom (normInput text)

/-! CRM lookup sub-decisions of handle_mention (app.py lines 412 to 446). -/

inductive FetchStrategy
  | AllRecords
  | SearchByName (term : List Char)
deriving DecidableEq

inductive OutputMode
  | Summary
  | EmailFollowup
  | MeetingPrep
  | NextSteps
deriving DecidableEq

def overview_phrases : List (List Char) :=
  ["alle kunder".data, "alle leads".data, "hvilke leads har vi".data,
   "hvilke kunder har vi".data, "overblik over vores leads".data,
   "overblik over kunder".data]

def email_phrases : List (List Char) :=
  ["skriv en mail".data, "skriv en e-mail".data, "skriv email".data,
   "skriv en email".data, "formuler en mail".data, "lav en mail".data,
   "follow up mail".data, "opfølgningsmail".data]

def meeting_phrases : List (List Char) :=
  ["forbered møde".data, "forberedelse til møde".data,
   "mødeforberedelse".data, "prepare meeting".data,
   "prepare for meeting".data, "salgsmøde".data, "kundemøde".data]

def next_step_phrases : List (List Char) :=
  ["næste skridt".data, "next steps".data, "hvad gør vi nu".data,
   "hvad er næste skridt".data, "hvad bør jeg gøre nu".data]

/-- Output mode chain of handle_mention lines 441 to 446, a function of the
lower-cased text alone. -/
def output_mode (lower : List Char) : OutputMode :=
  if email_phrases.any (fun p => hasSub lower p) then OutputMode.EmailFollowup
  else if meeting_phrases.any (fun p => hasSub lower p) then OutputMode.MeetingPrep
  else if next_step_phrases.any (fun p => hasSub lower p) then OutputMode.NextSteps
  else OutputMode.Summary

/-- CRM branch of handle_mention: the fetch strategy from the overview
phrases (search term from the entity extractor on the original text
otherwise), and the output mode from the three mode phrase lists. -/
def crmRoute (userText : List Char) : FetchStrategy × OutputMode :=
  let lower := pyLower userText
  let strat :=
    if overview_phrases.any (fun p => hasSub lower p) then FetchStrategy.AllRecords
    else FetchStrategy.SearchByName (extract_customer_name userText)
  let mode :=
    if email_phrases.any (fun p => hasSub lower p) then OutputMode.EmailFollowup
    else if meeting_phrases.any (fun p => hasSub lower p) then OutputMode.MeetingPrep
    else if next_step_phrases.any (fun p => hasSub lower p) then OutputMode.NextSteps
    else OutputMode.Summary
  (strat, mode)

/-! CRM data access (monday_client.py).  The GraphQL transport is modelled
by its outcome: an error value when the remote call raises (auth error,
network error, or a non-empty API error list, all re-raised by
_call_monday), or the optional boards payload it returns. -/

structure ColumnValue where
  id : Option (List Char)
  text : Option (List Char)
deriving DecidableEq

structure Item where
  id : Option (List Char)
  name : Option (List Char)
  column_values : Option (List ColumnValue)
deriving DecidableEq

structure ItemsPage where
  items : Option (List Item)
deriving DecidableEq

structure Board where
  items_page : Option ItemsPage
deriving DecidableEq

structure BoardsData where
  boards : Option (List Board)
deriving DecidableEq

/-- Outcome of the single remote call issued by get_all_items. -/
abbrev MondayCall := Except (List Char) (Option BoardsData)

/-- Fetch of all items of a board (monday_client.py lines 65 to 108): on a
successful call the boards payload is unwrapped with empty-list defaults;
a failing call is logged and re-raised, which the Except error models. -/
def get_all_items (call : MondayCall) : Except (List Char) (List Item) :=
  match call with
  | Except.error e => Except.error e
  | Except.ok data =>
    let boards := match data with
      | none => []
      | some d => d.boards.getD []
    match boards with
    | [] => Except.ok []
    | b :: _ =>
      Except.ok (match b.items_page with
        | none => []
        | some ip => ip.items.getD [])

/-- Match test of the client-side filter of search_items_by_text: the
lower-cased name contains the term, or some column text does (with the
break on the first matching column). -/
def item_matches (term : List Char) (item : Item) : Bool :=
  hasSub (pyLower (item.name.getD [])) term ||
    (item.column_values.getD []).any
      (fun cv => hasSub (pyLower (cv.text.getD [])) term)

/-- Client-side text search (monday_client.py lines 111 to 156).  The
second component records whether the remote call was issued.  An empty
normalised term returns immediately; a failure of the underlying fetch is
caught and turned into an empty result. -/
def search_items_by_text (call : MondayCall) (text : List Char) :
    List Item × Bool :=
  let term := pyLower (pyStrip text)
  if term.isEmpty then ([], false)
  else
    match get_all_items call with
    | Except.error _ => ([], true)
    | Except.ok items => (items.filter (item_matches term), true)

/-- Witness for C4 at a concrete board: the term acme, one record named
Acme Corp, one record matching through a column text, one record matching
neither. -/
def demoItemAcme : Item :=
  { id := some "1".data, name := some "Acme Corp".data,
    column_values := some [] }

def demoItemCol : Item :=
  { id := some "2".data, name := some "Other".data,
    column_values := some [{ id := some "email".data,
                             text := some "sales@ACME.io".data }] }

def demoItemMiss : Item :=
  { id := some "3".data, name := some "Beta".data,
    column_values := some [{ id := some "email".data,
                             text := some "x@beta.dk".data }] }

def demoBoard : Board :=
  { items_page := some { items := some [demoItemAcme, demoItemCol, demoItemMiss] } }

def demoCall : MondayCall :=
  Except.ok (some { boards := some [demoBoard] })

/-! RAG answer pipeline (build_rag_answer in app.py, lines 200 to 254).
The retriever is modelled by its outcome: none when no index was loaded at
startup, an error when the similarity-search call raises, or the ranked
document list.  The language model is a function from the prompt to either
its text or an invocation error. -/

structure RagDoc where
  page_content : List Char
deriving DecidableEq

/-- Retrieval step of build_rag_answer: without a retriever, or when the
invoke call raises, the context list stays empty; otherwise the page
contents of the first five documents. -/
def ragContextParts (retrieval : Option (Except (List Char) (List RagDoc))) :
    List (List Char) :=
  match retrieval with
  | none => []
  | some (Except.error _) => []
  | some (Except.ok docs) => (docs.take 5).map (fun d => d.page_content)

/-- Separator joining the context chunks in the prompt. -/
def ragSeparator : List Char := "\n\n---\n\n".data

/-- Fixed apology returned when the model invocation fails. -/
def ragApology : List Char :=
  "Beklager, jeg kunne ikke generere et svar lige nu. Prøv igen senere.".data

def ragPromptPre : List Char :=
  ("\nDu er SAIBORG – en professionel, præcis og hjælpsom dansk AI-assistent.\n\nDIT MÅL:\n- Giv det bedst mulige svar på brugerens spørgsmål.\n- Brug dokument-konteksten som PRIMÆR KILDE.\n- Hvis konteksten ikke er relevant, så forklar, hvad du kan svare ud fra generel viden.\n- Svar altid på klart, flydende og professionelt dansk.\n\nBRUGERENS SPØRGSMÅL:\n\"\"\"").data

def ragPromptMid : List Char :=
  ("\"\"\"\n\nDOKUMENT-KONTEKST:\n\"\"\"").data

def ragPromptPost : List Char :=
  ("\"\"\"\n\nREGLER:\n1) Du må aldrig opfinde tal, priser eller specifikke fakta, der ikke står i konteksten.\n2) Hvis noget er uklart eller mangler i materialet, skal du sige det tydeligt.\n3) Vær kortfattet, præcis og venlig i tonen.\n\nOUTPUTFORMAT:\n- Start med en 1–2 linjers opsummering.\n- Giv derefter et struktureret svar (punktopstilling eller korte afsnit).\n").data

/-- Prompt assembly of build_rag_answer: the fixed preamble, the verbatim
question, the joined context and the grounding rules. -/
def rag_prompt (user_text context : List Char) : List Char :=
  ragPromptPre ++ user_text ++ ragPromptMid ++ context ++ ragPromptPost

/-- Answer composition of build_rag_answer: one model invocation on the
assembled prompt; its text on success, the apology on failure. -/
def build_rag_answer (retrieval : Option (Except (List Char) (List RagDoc)))
    (llm : List Char → Except (List Char) (List Char))
    (user_text : List Char) : List Char :=
  let context := List.intercalate ragSeparator (ragContextParts retrieval)
  match llm (rag_prompt user_text context) with
  | Except.ok resp => resp
  | Except.error _ => ragApology

/-! Corpus indexer (build_index.py).  A source file is its name plus the
per-page extraction outcomes; none stands for a page whose extract_text
raised or returned None, both treated as empty text by the source.  A file
that PdfReader failed to open is skipped, modelled by a none entry in the
file list.  The text splitter is an external collaborator and is passed in
as a function; the only contract used is that a text no longer than the
chunk size is returned as a single chunk. -/

structure PdfFile where
  filename : List Char
  pages : List (Option (List Char))

structure PageMeta where
  source : List Char
  page : Nat
deriving DecidableEq

structure ChunkMeta where
  source : List Char
  page : Nat
  chunk : Nat
deriving DecidableEq

/-- Page loop of load_pdf_texts for one file, carrying the 0-based page
counter: stripped page texts that are non-empty, with source and 1-based
page number. -/
def load_pdf_pages (filename : List Char) :
    List (Option (List Char)) → Nat → List (List Char) × List PageMeta
  | [], _ => ([], [])
  | pg :: rest, n =>
    let r := load_pdf_pages filename rest (n + 1)
    let s := pyStrip (pg.getD [])
    if s.isEmpty then r
    else (s :: r.1, { source := filename, page := n + 1 } :: r.2)

/-- load_pdf_texts of build_index.py (lines 26 to 75): page texts and
metadata over all readable files. -/
def load_pdf_texts : List (Option PdfFile) → List (List Char) × List PageMeta
  | [] => ([], [])
  | none :: rest => load_pdf_texts rest
  | some f :: rest =>
    let a := load_pdf_pages f.filename f.pages 0
    let b := load_pdf_texts rest
    (a.1 ++ b.1, a.2 ++ b.2)

/-- Chunk loop of split_texts for one page: the chunks of the splitter in
order, each with the source, page and its 0-based chunk index. -/
def chunkEnum (source : List Char) (page : Nat) :
    List (List Char) → Nat → List (List Char) × List ChunkMeta
  | [], _ => ([], [])
  | c :: cs, i =>
    let r := chunkEnum source page cs (i + 1)
    (c :: r.1, { source := source, page := page, chunk := i } :: r.2)

/-- split_texts of build_index.py (lines 78 to 102): the splitter applied
within each page text, chunks tagged with the metadata of that page. -/
def split_texts (splitter : List Char → List (List Char)) :
    List (List Char) → List PageMeta → List (List Char) × List ChunkMeta
  | t :: ts, m :: ms =>
    let a := chunkEnum m.source m.page (splitter t) 0
    let b := split_texts splitter ts ms
    (a.1 ++ b.1, a.2 ++ b.2)
  | _, _ => ([], [])

/-- Count of pages of one file whose stripped text is non-empty. -/
def nonblankPages : List (Option (List Char)) → Nat
  | [] => 0
  | pg :: rest =>
    (if (pyStrip (pg.getD [])).isEmpty then 0 else 1) + nonblankPages rest

/-- Count of non-blank pages over all readable files. -/
def nonblankCount : List (Option PdfFile) → Nat
  | [] => 0
  | none :: rest => nonblankCount rest
  | some f :: rest => nonblankPages f.pages + nonblankCount rest

/-! Index rebuild (main in build_index.py, lines 105 to 149), as a function
from the environment to the list of filesystem effects on the persisted
index directory and the final outcome. -/

inductive BuildEffect
  | deleteIndex
  | buildIndex
deriving DecidableEq

inductive BuildOutcome
  | abortedNoTexts
  | abortedEmbedInit
  | abortedDeleteFail
  | buildErrorRaised
  | finished
deriving DecidableEq

/-- main of build_index.py: load, abort when no page text was found, split,
initialise the embedding client (abort on failure), delete an existing
index directory (abort when the deletion fails), then build; a failing
build is re-raised. -/
def build_main (splitter : List Char → List (List Char))
    (files : List (Option PdfFile))
    (embedInitOk indexExists deleteOk buildOk : Bool) :
    List BuildEffect × BuildOutcome :=
  let loaded := load_pdf_texts files
  if loaded.1.isEmpty then ([], BuildOutcome.abortedNoTexts)
  else
    let _chunks := split_texts splitter loaded.1 loaded.2
    if !embedInitOk then ([], BuildOutcome.abortedEmbedInit)
    else
      let delEffects := if indexExists then [BuildEffect.deleteIndex] else []
      if indexExists && !deleteOk then (delEffects, BuildOutcome.abortedDeleteFail)
      else if buildOk then (delEffects ++ [BuildEffect.buildIndex], BuildOutcome.finished)
      else (delEffects ++ [BuildEffect.buildIndex], BuildOutcome.buildErrorRaised)

/-- Predicate that the five pattern rules of extract_customer_name all fail
on a normalised text: no kunde match of either regex, no find match, no
connector occurrence, and no capitalized word. -/
abbrev fallsThrough (t : List Char) : Prop :=
  searchSub matchKunde1At t = none ∧ searchSub matchKunde2At t = none ∧
  searchSub matchFindAt t = none ∧ ¬ earliestConnIdx (pyLower t) < t.length ∧
  capSearchAux none t = none

theorem isPrefixOfB_trans :
    ∀ a b c : List Char, isPrefixOfB a b = true → isPrefixOfB b c = true →
      isPrefixOfB a c = true := by
  intro a
  induction a with
  | nil => intro b c _ _; rfl
  | cons p ps ih =>
      intro b c h1 h2
      cases b with
      | nil => simp [isPrefixOfB] at h1
      | cons q qs =>
          cases c with
          | nil => simp [isPrefixOfB] at h2
          | cons r rs =>
              simp only [isPrefixOfB, Bool.and_eq_true, beq_iff_eq] at h1 h2 ⊢
              exact ⟨h1.1.trans h2.1, ih qs rs h1.2 h2.2⟩

theorem hasSub_of_isPrefixOfB :
    ∀ (hay n m : List Char), isPrefixOfB m n = true → hasSub hay n = true →
      hasSub hay m = true := by
  intro hay
  induction hay with
  | nil =>
      intro n m hp hs
      cases n with
      | nil =>
          cases m with
          | nil => rfl
          | cons x xs => simp [isPrefixOfB] at hp
      | cons x xs => simp [hasSub, isPrefixOfB] at hs
  | cons c t ih =>
      intro n m hp hs
      simp only [hasSub, Bool.or_eq_true] at hs ⊢
      cases hs with
      | inl h => exact Or.inl (isPrefixOfB_trans m n (c :: t) hp h)
      | inr h => exact Or.inr (ih n m hp h)

/-- C1: the intent router classifies the lower-cased message text in strict
priority order: a text containing "monday test" is a HealthCheck regardless
of other phrases; a text containing "monday" or "crm" but not "monday test"
is a CrmLookup; every other text is GeneralQA. -/
theorem intent_router_spec (t : List Char) :
    (intentCategory t = IntentCategory.HealthCheck ↔
      hasSub (pyLower t) ("monday test".data) = true) ∧
    (intentCategory t = IntentCategory.CrmLookup ↔
      ((hasSub (pyLower t) ("monday".data) = true ∨
        hasSub (pyLower t) ("crm".data) = true) ∧
        hasSub (pyLower t) ("monday test".data) = false)) ∧
    (intentCategory t = IntentCategory.GeneralQA ↔
      (hasSub (pyLower t) ("monday".data) = false ∧
        hasSub (pyLower t) ("crm".data) = false)) := by
  cases hmt : hasSub (pyLower t) ("monday test".data) with
  | false =>
      cases hm : hasSub (pyLower t) ("monday".data) <;>
        cases hc : hasSub (pyLower t) ("crm".data) <;>
          simp [intentCategory, hmt, hm, hc]
  | true =>
      have hm : hasSub (pyLower t) ("monday".data) = true :=
        hasSub_of_isPrefixOfB (pyLower t) ("monday test".data) ("monday".data)
          (by decide) hmt
      simp [intentCategory, hmt, hm]

/-- C2: within a CrmLookup the fetch strategy is AllRecords exactly when the
lower-cased text contains one of the six overview phrases, wherever it
appears; otherwise it is SearchByName with the term produced by the entity
extractor on the original text. -/
theorem crm_fetch_strategy_spec (t : List Char) :
    ((crmRoute t).1 = FetchStrategy.AllRecords ↔
      overview_phrases.any (fun p => hasSub (pyLower t) p) = true) ∧
    ((crmRoute t).1 = FetchStrategy.SearchByName (extract_customer_name t) ↔
      overview_phrases.any (fun p => hasSub (pyLower t) p) = false) := by
  cases h : overview_phrases.any (fun p => hasSub (pyLower t) p) <;>
    simp [crmRoute, h]

/-- C3: within a CrmLookup the output mode is decided from the lower-cased
text by the phrase sets in priority order EmailFollowup, MeetingPrep,
NextSteps, with Summary as the default, by case-insensitive substring
matching; the mode equals output_mode of the lower-cased text, a function
that never consults the overview phrases, so it is independent of the
fetch-strategy decision. -/
theorem crm_output_mode_spec (t : List Char) :
    ((crmRoute t).2 = OutputMode.EmailFollowup ↔
      email_phrases.any (fun p => hasSub (pyLower t) p) = true) ∧
    ((crmRoute t).2 = OutputMode.MeetingPrep ↔
      (meeting_phrases.any (fun p => hasSub (pyLower t) p) = true ∧
       email_phrases.any (fun p => hasSub (pyLower t) p) = false)) ∧
    ((crmRoute t).2 = OutputMode.NextSteps ↔
      (next_step_phrases.any (fun p => hasSub (pyLower t) p) = true ∧
       email_phrases.any (fun p => hasSub (pyLower t) p) = false ∧
       meeting_phrases.any (fun p => hasSub (pyLower t) p) = false)) ∧
    ((crmRoute t).2 = OutputMode.Summary ↔
      (email_phrases.any (fun p => hasSub (pyLower t) p) = false ∧
       meeting_phrases.any (fun p => hasSub (pyLower t) p) = false ∧
       next_step_phrases.any (fun p => hasSub (pyLower t) p) = false)) ∧
    (crmRoute t).2 = output_mode (pyLower t) := by
  cases he : email_phrases.any (fun p => hasSub (pyLower t) p) <;>
    cases hm : meeting_phrases.any (fun p => hasSub (pyLower t) p) <;>
      cases hn : next_step_phrases.any (fun p => hasSub (pyLower t) p) <;>
        simp [crmRoute, output_mode, he, hm, hn]

/-- C4: searchByText with a term that is empty after trimming and
lower-casing returns an empty list without issuing the remote call; with a
non-empty term it returns exactly the fetched records whose name or some
column text contains the term case-insensitively, and no others. -/
theorem search_by_text_spec :
    (∀ (call : MondayCall) (text : List Char),
      pyLower (pyStrip text) = [] →
        search_items_by_text call text = ([], false)) ∧
    (∀ (call : MondayCall) (items : List Item) (text : List Char),
      pyLower (pyStrip text) ≠ [] →
      get_all_items call = Except.ok items →
        (search_items_by_text call text).2 = true ∧
        (∀ it : Item, it ∈ (search_items_by_text call text).1 ↔
          (it ∈ items ∧
            (hasSub (pyLower (it.name.getD [])) (pyLower (pyStrip text)) = true ∨
             ∃ cv ∈ it.column_values.getD [],
               hasSub (pyLower (cv.text.getD [])) (pyLower (pyStrip text)) = true)))) := by
  constructor
  · intro call text h
    simp [search_items_by_text, h]
  · intro call items text hne hok
    have hemp : (pyLower (pyStrip text)).isEmpty = false := by
      cases h : pyLower (pyStrip text) with
      | nil => exact absurd h hne
      | cons c cs => rfl
    constructor
    · simp [search_items_by_text, hemp, hok]
    · intro it
      simp [search_items_by_text, hemp, hok, List.mem_filter, item_matches,
        Bool.or_eq_true, List.any_eq_true, and_assoc]

/-- C7: asymmetric failure policy of the two CRM access operations.
get_all_items propagates a failing remote call to its caller, and returns
an empty list without error when the board exists but holds no records;
search_items_by_text catches the failure of the underlying call and
returns an empty list instead of propagating. -/
theorem crm_failure_policy_spec :
    (∀ e : List Char, get_all_items (Except.error e) = Except.error e) ∧
    (∀ rest : List Board,
      get_all_items (Except.ok (some
        { boards := some ({ items_page := some { items := some [] } } :: rest) })) =
        Except.ok []) ∧
    (∀ (e : List Char) (text : List Char),
      pyLower (pyStrip text) ≠ [] →
        search_items_by_text (Except.error e) text = ([], true)) := by
  refine ⟨fun e => rfl, fun rest => rfl, ?_⟩
  intro e text hne
  have hemp : (pyLower (pyStrip text)).isEmpty = false := by
    cases h : pyLower (pyStrip text) with
    | nil => exact absurd h hne
    | cons c cs => rfl
  simp [search_items_by_text, hemp, get_all_items]

theorem search_by_text_witness :
    pyLower (pyStrip ("  Acme ".data)) ≠ [] ∧
    get_all_items demoCall = Except.ok [demoItemAcme, demoItemCol, demoItemMiss] ∧
    (demoItemAcme ∈ (search_items_by_text demoCall ("  Acme ".data)).1 ↔
      (demoItemAcme ∈ [demoItemAcme, demoItemCol, demoItemMiss] ∧
        (hasSub (pyLower (demoItemAcme.name.getD []))
            (pyLower (pyStrip ("  Acme ".data))) = true ∨
         ∃ cv ∈ demoItemAcme.column_values.getD [],
           hasSub (pyLower (cv.text.getD []))
             (pyLower (pyStrip ("  Acme ".data))) = true))) := by
  refine ⟨by decide, rfl, ?_⟩
  exact (search_by_text_spec.2 demoCall [demoItemAcme, demoItemCol, demoItemMiss]
    ("  Acme ".data) (by decide) rfl).2 demoItemAcme

theorem crm_failure_policy_witness :
    get_all_items (Except.error ("boom".data)) = Except.error ("boom".data) ∧
    search_items_by_text (Except.error ("boom".data)) ("acme".data) = ([], true) := by
  refine ⟨crm_failure_policy_spec.1 ("boom".data), ?_⟩
  exact crm_failure_policy_spec.2.2 ("boom".data) ("acme".data) (by decide)

/-- C9: the RAG pipeline never surfaces an exception.  When no index is
present, the index failed to load, or the similarity search raises, the
context set is empty and the model is still invoked, its text returned; and
whenever the model invocation itself fails the fixed apology string is
returned. -/
theorem rag_pipeline_spec :
    (∀ (retrieval : Option (Except (List Char) (List RagDoc)))
       (llm : List Char → Except (List Char) (List Char)) (text : List Char),
      (retrieval = none ∨ ∃ e, retrieval = some (Except.error e)) →
        ragContextParts retrieval = [] ∧
        build_rag_answer retrieval llm text =
          (match llm (rag_prompt text []) with
           | Except.ok r => r
           | Except.error _ => ragApology)) ∧
    (∀ retrieval llm (text r : List Char),
      llm (rag_prompt text
          (List.intercalate ragSeparator (ragContextParts retrieval))) =
        Except.ok r →
        build_rag_answer retrieval llm text = r) ∧
    (∀ retrieval llm (text e : List Char),
      llm (rag_prompt text
          (List.intercalate ragSeparator (ragContextParts retrieval))) =
        Except.error e →
        build_rag_answer retrieval llm text = ragApology) := by
  refine ⟨?_, ?_, ?_⟩
  · intro retrieval llm text h
    have hctx : ragContextParts retrieval = [] := by
      rcases h with h | ⟨e, h⟩ <;> subst h <;> rfl
    refine ⟨hctx, ?_⟩
    simp only [build_rag_answer, hctx, List.intercalate]
    rfl
  · intro retrieval llm text r h
    simp only [build_rag_answer, h]
  · intro retrieval llm text e h
    simp only [build_rag_answer, h]

theorem rag_pipeline_witness :
    ragContextParts none = [] ∧
    build_rag_answer none (fun _ => Except.ok ("svar".data)) ("hej".data) =
      "svar".data ∧
    build_rag_answer (some (Except.error ("netfejl".data)))
      (fun _ => Except.error ("kvote".data)) ("hej".data) = ragApology := by
  refine ⟨(rag_pipeline_spec.1 none (fun _ => Except.ok ("svar".data))
    ("hej".data) (Or.inl rfl)).1, ?_, ?_⟩
  · exact rag_pipeline_spec.2.1 none (fun _ => Except.ok ("svar".data))
      ("hej".data) ("svar".data) rfl
  · exact rag_pipeline_spec.2.2 (some (Except.error ("netfejl".data)))
      (fun _ => Except.error ("kvote".data)) ("hej".data) ("kvote".data) rfl

theorem load_pdf_pages_length (filename : List Char) :
    ∀ (pgs : List (Option (List Char))) (n : Nat),
      (load_pdf_pages filename pgs n).1.length = nonblankPages pgs ∧
      ∀ s ∈ (load_pdf_pages filename pgs n).1, s ≠ [] := by
  intro pgs
  induction pgs with
  | nil => intro n; exact ⟨rfl, by intro s hs; cases hs⟩
  | cons pg rest ih =>
      intro n
      cases h : (pyStrip (pg.getD [])).isEmpty with
      | true =>
          simp only [load_pdf_pages, nonblankPages, h, if_true, Nat.zero_add]
          exact ⟨(ih (n + 1)).1, (ih (n + 1)).2⟩
      | false =>
          simp only [load_pdf_pages, nonblankPages, h, if_false]
          refine ⟨by simp [(ih (n + 1)).1, Nat.add_comm], ?_⟩
          intro s hs
          rcases List.mem_cons.mp hs with rfl | hmem
          · intro hnil
            rw [hnil] at h
            simp [List.isEmpty] at h
          · exact (ih (n + 1)).2 s hmem

/-- C8 part one generalised: every page whose stripped text is empty
contributes nothing, so the loaded text count equals the non-blank page
count and no loaded text is empty. -/
theorem load_pdf_texts_nonblank (files : List (Option PdfFile)) :
    (load_pdf_texts files).1.length = nonblankCount files ∧
    ∀ s ∈ (load_pdf_texts files).1, s ≠ [] := by
  induction files with
  | nil => exact ⟨rfl, by intro s hs; cases hs⟩
  | cons f rest ih =>
      cases f with
      | none => exact ih
      | some f =>
          simp only [load_pdf_texts, nonblankCount, List.length_append]
          refine ⟨by rw [(load_pdf_pages_length f.filename f.pages 0).1, ih.1], ?_⟩
          intro s hs
          rcases List.mem_append.mp hs with hmem | hmem
          · exact (load_pdf_pages_length f.filename f.pages 0).2 s hmem
          · exact ih.2 s hmem

/-- C8: a page whose extracted text is empty or whitespace-only contributes
zero chunks and zero metadata entries (the loaded texts count the non-blank
pages only), and a document of three non-empty pages each no longer than
the chunk size splits into exactly three chunks, one per page, each with
the source and page number of that page and chunk index zero. -/
theorem corpus_indexer_spec :
    (∀ files : List (Option PdfFile),
      (load_pdf_texts files).1.length = nonblankCount files ∧
      ∀ s ∈ (load_pdf_texts files).1, s ≠ []) ∧
    (∀ (splitter : List Char → List (List Char)) (chunkSize : Nat)
       (fname p1 p2 p3 : List Char),
      (∀ s : List Char, s.length ≤ chunkSize → splitter s = [s]) →
      pyStrip p1 ≠ [] → pyStrip p2 ≠ [] → pyStrip p3 ≠ [] →
      (pyStrip p1).length ≤ chunkSize → (pyStrip p2).length ≤ chunkSize →
      (pyStrip p3).length ≤ chunkSize →
      split_texts splitter
          (load_pdf_texts [some ⟨fname, [some p1, some p2, some p3]⟩]).1
          (load_pdf_texts [some ⟨fname, [some p1, some p2, some p3]⟩]).2 =
        ([pyStrip p1, pyStrip p2, pyStrip p3],
         [⟨fname, 1, 0⟩, ⟨fname, 2, 0⟩, ⟨fname, 3, 0⟩])) := by
  refine ⟨load_pdf_texts_nonblank, ?_⟩
  intro splitter chunkSize fname p1 p2 p3 hsplit h1 h2 h3 l1 l2 l3
  have e1 : (pyStrip p1).isEmpty = false := by
    cases hh : pyStrip p1 with
    | nil => exact absurd hh h1
    | cons c cs => rfl
  have e2 : (pyStrip p2).isEmpty = false := by
    cases hh : pyStrip p2 with
    | nil => exact absurd hh h2
    | cons c cs => rfl
  have e3 : (pyStrip p3).isEmpty = false := by
    cases hh : pyStrip p3 with
    | nil => exact absurd hh h3
    | cons c cs => rfl
  simp only [load_pdf_texts, load_pdf_pages, Option.getD, e1, e2, e3,
    if_false, List.append_nil, split_texts, chunkEnum,
    hsplit (pyStrip p1) l1, hsplit (pyStrip p2) l2, hsplit (pyStrip p3) l3]
  rfl

theorem corpus_indexer_witness :
    pyStrip ("side et".data) ≠ [] ∧
    split_texts (fun s => [s])
        (load_pdf_texts [some ⟨"doc.pdf".data,
          [some ("side et".data), some (" side to ".data), some ("tre".data)]⟩]).1
        (load_pdf_texts [some ⟨"doc.pdf".data,
          [some ("side et".data), some (" side to ".data), some ("tre".data)]⟩]).2 =
      ([pyStrip ("side et".data), pyStrip (" side to ".data), pyStrip ("tre".data)],
       [⟨"doc.pdf".data, 1, 0⟩, ⟨"doc.pdf".data, 2, 0⟩, ⟨"doc.pdf".data, 3, 0⟩]) := by
  refine ⟨by decide, ?_⟩
  exact corpus_indexer_spec.2 (fun s => [s]) 1000 ("doc.pdf".data)
    ("side et".data) (" side to ".data) ("tre".data)
    (fun s _ => rfl) (by decide) (by decide) (by decide)
    (by decide) (by decide) (by decide)

/-- C10: the rebuild touches the persisted index only after loading
produced at least one page text and the embedding client initialised; an
early-failing rebuild performs no filesystem effect at all, and any
deletion of the prior index implies both steps succeeded. -/
theorem rebuild_atomicity_spec :
    (∀ (splitter : List Char → List (List Char)) (files : List (Option PdfFile))
       (eOk iEx dOk bOk : Bool),
      ((load_pdf_texts files).1 = [] ∨ eOk = false) →
        (build_main splitter files eOk iEx dOk bOk).1 = []) ∧
    (∀ (splitter : List Char → List (List Char)) (files : List (Option PdfFile))
       (eOk iEx dOk bOk : Bool),
      BuildEffect.deleteIndex ∈ (build_main splitter files eOk iEx dOk bOk).1 →
        (load_pdf_texts files).1 ≠ [] ∧ eOk = true) := by
  constructor
  · intro splitter files eOk iEx dOk bOk h
    rcases h with h | h
    · simp [build_main, h]
    · subst h
      cases he : (load_pdf_texts files).1.isEmpty <;> simp [build_main, he]
  · intro splitter files eOk iEx dOk bOk h
    cases he : (load_pdf_texts files).1.isEmpty with
    | true =>
        rw [build_main] at h
        simp only [he, if_true] at h
        cases h
    | false =>
        have hne : (load_pdf_texts files).1 ≠ [] := by
          intro hnil
          rw [hnil] at he
          cases he
        refine ⟨hne, ?_⟩
        cases eOk with
        | true => rfl
        | false =>
            rw [build_main] at h
            simp only [he, if_false, Bool.not_false, if_true] at h
            cases h

theorem rebuild_atomicity_witness :
    (load_pdf_texts ([] : List (Option PdfFile))).1 = [] ∧
    (build_main (fun s => [s]) [] true true true true).1 = [] := by
  refine ⟨rfl, ?_⟩
  exact rebuild_atomicity_spec.1 (fun s => [s]) [] true true true true (Or.inl rfl)

theorem getLast?_dropRightWhile (p : Char → Bool) :
    ∀ (l : List Char) (c : Char),
      (dropRightWhile p l).getLast? = some c → p c = false := by
  intro l
  induction l with
  | nil => intro c h; exact Option.noConfusion h
  | cons a rest ih =>
      intro c h
      rw [dropRightWhile] at h
      cases hd : dropRightWhile p rest with
      | nil =>
          rw [hd] at h
          cases hpa : p a with
          | true => rw [if_pos hpa] at h; exact Option.noConfusion h
          | false =>
              rw [if_neg (by simp [hpa])] at h
              have hac : a = c := by simpa using h
              rw [← hac]
              exact hpa
      | cons d ds =>
          rw [hd] at h
          rw [List.getLast?_cons_cons] at h
          rw [← hd] at h
          exact ih c h

theorem pyStripSet_cons_of_not_mem (cs : List Char) (c : Char)
    (rest : List Char) (h : charIn cs c = false) :
    pyStripSet cs (c :: rest) = c :: dropRightWhile (charIn cs) rest := by
  unfold pyStripSet
  rw [List.dropWhile_cons, if_neg (by simp [h]), dropRightWhile]
  cases hd : dropRightWhile (charIn cs) rest with
  | nil => rw [if_neg (by simp [h])]
  | cons d ds => rfl

theorem alnum_not_in_punct (c : Char) (h : pyIsAlnum c = true) :
    charIn punctChars c = false := by
  cases hc : charIn punctChars c with
  | false => rfl
  | true =>
      exfalso
      have hmem : ∃ d ∈ punctChars, (d == c) = true := by
        have := hc
        rw [charIn, List.any_eq_true] at this
        exact this
      obtain ⟨d, hd, hdc⟩ := hmem
      have hdeq : d = c := by simpa using hdc
      subst hdeq
      have : d = ' ' ∨ d = '?' ∨ d = '!' ∨ d = '.' ∨ d = ':' ∨ d = ',' ∨ d = ';' := by
        simpa [punctChars] using hd
      rcases this with rfl | rfl | rfl | rfl | rfl | rfl | rfl <;>
        exact absurd h (by decide)

theorem extract_customer_name_stripped (text : List Char) :
    ∃ s, extract_customer_name text = pyStripSet punctChars s := by
  unfold extract_customer_name extractFrom
  repeat' split
  all_goals exact ⟨_, rfl⟩

/-- C5 amended: the two quoted extractions hold, the extractor is a total
function whose result never carries a trailing question mark, and on an
input where all five pattern rules fail (no kunde or find match, no
connector, no capitalized word) whose text has a whitespace token longer
than two characters starting alphanumeric, the result is that token
stripped: non-empty, alphanumeric-initial, hence without a leading dash.
Degenerate inputs without such a token can return an empty string or keep
a leading dash, as the counterexample records. -/
theorem extract_heuristic_amended :
    extract_customer_name ("kunden Acme Corp i monday".data) = "Acme Corp".data ∧
    extract_customer_name ("find TechNova og giv status".data) = "TechNova".data ∧
    (∀ (text : List Char) (c : Char),
      (extract_customer_name text).getLast? = some c → c ≠ '?') ∧
    (∀ text : List Char, fallsThrough (normInput text) →
      ∀ (p : Char) (ps : List Char),
        rule6Find (normInput text) = some (p :: ps) →
          extract_customer_name text ≠ [] ∧
          (extract_customer_name text).head? = some p ∧
          pyIsAlnum p = true ∧ p ≠ '-') := by
  refine ⟨by decide, by decide, ?_, ?_⟩
  · intro text c h
    obtain ⟨s, hs⟩ := extract_customer_name_stripped text
    rw [hs] at h
    unfold pyStripSet at h
    have hfree := getLast?_dropRightWhile (charIn punctChars)
      (s.dropWhile (charIn punctChars)) c h
    intro heq
    rw [heq] at hfree
    exact absurd hfree (by decide)
  · intro text hft p ps h6
    obtain ⟨h1, h2, h3, h4, h5⟩ := hft
    have hp : pyIsAlnum p = true := by
      have hpred := List.find?_some h6
      simp only [Bool.and_eq_true] at hpred
      exact hpred.2
    have hnp : charIn punctChars p = false := alnum_not_in_punct p hp
    have hext : extract_customer_name text = pyStripSet punctChars (p :: ps) := by
      unfold extract_customer_name extractFrom
      rw [h1, h2, h3, if_neg h4, h5, h6]
    rw [hext, pyStripSet_cons_of_not_mem punctChars p ps hnp]
    refine ⟨by simp, rfl, hp, ?_⟩
    intro heq
    rw [heq] at hp
    exact absurd hp (by decide)

/-- C5 counterexample: on the inputs with no recognizable pattern and no
capitalized word below, the extractor returns an empty string for one and
a value with a leading dash for the other, refuting the claimed non-empty
result free of a leading dash. -/
theorem extract_heuristic_counterexample :
    extract_customer_name ("?".data) = [] ∧
    extract_customer_name ("? -x".data) = ['-', 'x'] ∧
    fallsThrough (normInput ("?".data)) ∧
    fallsThrough (normInput ("? -x".data)) := by
  exact ⟨by decide, by decide, by decide, by decide⟩

theorem extract_heuristic_witness :
    fallsThrough (normInput ("hvad er status".data)) ∧
    rule6Find (normInput ("hvad er status".data)) = some ('h' :: "vad".data) ∧
    extract_customer_name ("hvad er status".data) ≠ [] ∧
    (extract_customer_name ("hvad er status".data)).head? = some 'h' := by
  have happ := extract_heuristic_amended.2.2.2 ("hvad er status".data)
    (by decide) 'h' ("vad".data) (by decide)
  exact ⟨by decide, by decide, happ.1, happ.2.1⟩

theorem searchSub_some (f : List Char → Option (List Char))
    (P : List Char → Prop) (hf : ∀ s g, f s = some g → P g) :
    ∀ s g, searchSub f s = some g → P g := by
  intro s
  induction s with
  | nil => intro g h; exact hf [] g h
  | cons c rest ih =>
      intro g h
      simp only [searchSub] at h
      cases hc : f (c :: rest) with
      | some g2 =>
          simp only [hc] at h
          exact hf _ _ (hc.trans h)
      | none =>
          simp only [hc] at h
          exact ih g h

theorem matchFindAt_shape :
    ∀ s g : List Char, matchFindAt s = some g →
      ∃ c r, g = c :: r ∧ isAsciiAlpha c = true := by
  intro s g h
  simp only [matchFindAt] at h
  cases hstrip : ciStrip ("find".data) s with
  | none => simp [hstrip] at h
  | some r1 =>
      simp only [hstrip] at h
      by_cases hsp : (List.takeWhile pyIsSpace r1).isEmpty = true
      · simp [hsp] at h
      · simp only [hsp, if_false] at h
        cases hdrop : List.dropWhile pyIsSpace r1 with
        | nil => simp [hdrop] at h
        | cons c cs =>
            simp only [hdrop] at h
            by_cases hal : isAsciiAlpha c = true
            · by_cases hrun : (List.takeWhile isClassA cs).isEmpty = true
              · simp [hal, hrun] at h
              · simp [hal, hrun] at h
                exact ⟨c, List.takeWhile isClassA cs, h.symm, hal⟩
            · simp [hal] at h

/-- C6 amended: the find rule is compiled with IGNORECASE, so its captured
word begins with an ASCII letter of either case, not only an upper-case
one; an input such as find acme is captured by this rule, yielding acme,
instead of falling through to the later fallbacks. -/
theorem find_rule_amended :
    (∀ t g : List Char, searchSub matchFindAt t = some g →
      ∃ c r, g = c :: r ∧ isAsciiAlpha c = true) ∧
    extract_customer_name ("find acme".data) = "acme".data := by
  refine ⟨?_, by decide⟩
  intro t
  exact searchSub_some matchFindAt
    (fun g => ∃ c r, g = c :: r ∧ isAsciiAlpha c = true) matchFindAt_shape t

/-- C6 counterexample: the find rule captures the lower-case word acme in
find acme, contradicting the claim that this rule only fires on a
capitalized word and that such an input falls through to later fallbacks
(which would return the token find). -/
theorem find_rule_counterexample :
    searchSub matchFindAt ("find acme".data) = some ("acme".data) := by decide

theorem find_rule_witness :
    searchSub matchFindAt ("find Ab".data) = some ("Ab".data) ∧
    (∃ c r, "Ab".data = c :: r ∧ isAsciiAlpha c = true) := by
  refine ⟨by decide, ?_⟩
  exact find_rule_amended.1 ("find Ab".data) ("Ab".data) (by decide)

end Saiborg
